import Mathlib

/-!
Verification of the simplePPA hourly dispatch / cost-accumulation engine.

The definitions below are a shallow embedding of the Python sources:
  * `src/libs/calculator.py`      — `calculate_ppa_cost`, the scalar engine loop
  * `src/libs/data_processor.py`  — `generate_scenario_columns`, the vectorized builder
  * `src/libs/analyzer.py`        — `run_scenario_analysis`, `run_ess_analysis`,
                                    `find_optimal_scenario`
All numeric values are rationals; Python `float` arithmetic is modelled exactly,
and an unguarded division is modelled as an `Option` (it has no rational value
when the denominator is zero).
-/

namespace SimplePPA

/-- One row of the aligned hourly input series: normalized load, normalized solar
generation, grid rate (KRW/kWh) and grid emission factor (kgCO2e/kWh). -/
structure HourData where
  load : ℚ
  solar : ℚ
  rate : ℚ
  emission : ℚ
deriving DecidableEq

/-- The parameters of `calculate_ppa_cost` (src/libs/calculator.py lines 5-7). -/
structure Config where
  load_capacity_mw : ℚ
  ppa_coverage : ℚ
  contract_fee : ℚ
  ppa_price : ℚ
  ppa_mintake : ℚ
  ppa_resell : Bool
  ppa_resellrate : ℚ
  ess_price : ℚ
  ess_capacity : ℚ
deriving DecidableEq

/-- The mutable accumulators of the engine loop
(src/libs/calculator.py lines 60-76). -/
structure EngineState where
  ppa_cost : ℚ
  grid_energy_cost : ℚ
  ess_cost : ℚ
  ess_storage : ℚ
  peak_grid_demand_kw : ℚ
  total_ppa_purchased : ℚ
  total_ppa_excess : ℚ
  total_ppa_resold : ℚ
  total_load_met_by_ppa : ℚ
deriving DecidableEq

/-- All accumulators start at zero (calculator.py lines 60-76). -/
def initState : EngineState :=
  { ppa_cost := 0, grid_energy_cost := 0, ess_cost := 0, ess_storage := 0,
    peak_grid_demand_kw := 0, total_ppa_purchased := 0, total_ppa_excess := 0,
    total_ppa_resold := 0, total_load_met_by_ppa := 0 }

/-- Scaled hourly load, `load_kwh = load * load_capacity_mw * 1000` (calculator.py lines 51, 57). -/
def loadKwh (cfg : Config) (h : HourData) : ℚ :=
  h.load * cfg.load_capacity_mw * 1000

/-- Scaled hourly generation, `ppa_generation_kwh = solar * load_capacity_mw * ppa_coverage * 1000`
(calculator.py lines 54, 58). -/
def ppaGenKwh (cfg : Config) (h : HourData) : ℚ :=
  h.solar * cfg.load_capacity_mw * cfg.ppa_coverage * 1000

/-- The optional PPA purchase of one hour, exactly as computed by the scalar
engine loop (calculator.py lines 86-95). -/
def optionalPPA (ppa_price ppa_mintake hour_load hour_grid_rate hour_ppa_gen : ℚ) : ℚ :=
  let mandatory_ppa := hour_ppa_gen * ppa_mintake
  let optional_ppa_available := hour_ppa_gen - mandatory_ppa
  if 0 < optional_ppa_available then
    let remaining_load_after_mandatory := max 0 (hour_load - mandatory_ppa)
    if ppa_price < hour_grid_rate ∧ 0 < remaining_load_after_mandatory then
      min optional_ppa_available remaining_load_after_mandatory
    else 0
  else 0

/-- The optional PPA purchase of one hour as computed by the vectorized
scenario-columns builder (data_processor.py lines 137-153): the guard is
`ppa_mintake < 1` together with the cheaper-than-grid and unmet-load masks,
and `remaining_load_after_mandatory` is clipped at 0. -/
def optionalPPAColumns (ppa_price ppa_mintake load_kwh grid_rate ppa_generation_kwh : ℚ) : ℚ :=
  let mandatory_ppa := ppa_generation_kwh * ppa_mintake
  let optional_ppa_available := ppa_generation_kwh - mandatory_ppa
  let remaining_load_after_mandatory := max 0 (load_kwh - mandatory_ppa)
  if ppa_mintake < 1 ∧ ppa_price < grid_rate ∧ 0 < remaining_load_after_mandatory then
    min optional_ppa_available remaining_load_after_mandatory
  else 0

/-- Total PPA purchase of one hour: `mandatory_ppa + optional_ppa_purchased`
(calculator.py lines 84, 98). -/
def hourPurchase (cfg : Config) (h : HourData) : ℚ :=
  ppaGenKwh cfg h * cfg.ppa_mintake +
    optionalPPA cfg.ppa_price cfg.ppa_mintake (loadKwh cfg h) h.rate (ppaGenKwh cfg h)

/-- The ESS charge of an excess hour: `min(excess, ess_capacity - ess_storage)`
when there is headroom, else nothing (calculator.py lines 115-118). -/
def essChargeAmt (ess_capacity ess_storage excess_ppa : ℚ) : ℚ :=
  if ess_storage < ess_capacity then min excess_ppa (ess_capacity - ess_storage) else 0

/-- The ESS discharge of a deficit hour: `min(remaining_load, ess_storage)`
when the store is nonempty, else nothing (calculator.py lines 132-136). -/
def essDischargeAmt (ess_storage remaining_load : ℚ) : ℚ :=
  if 0 < ess_storage then min remaining_load ess_storage else 0

/-- One iteration of the engine loop (calculator.py lines 78-142). -/
def stepHour (cfg : Config) (st : EngineState) (h : HourData) : EngineState :=
  let hour_load := loadKwh cfg h
  let hour_grid_rate := h.rate
  let total_ppa_this_hour := hourPurchase cfg h
  let ppa_cost1 := st.ppa_cost + total_ppa_this_hour * cfg.ppa_price
  let total_ppa_purchased1 := st.total_ppa_purchased + total_ppa_this_hour
  let ppa_used_for_load := min total_ppa_this_hour hour_load
  let total_load_met1 := st.total_load_met_by_ppa + ppa_used_for_load
  let remaining_load := hour_load - total_ppa_this_hour
  if remaining_load ≤ 0 then
    -- excess branch (calculator.py lines 109-127)
    let excess_ppa0 := |remaining_load|
    let ess_charge := essChargeAmt cfg.ess_capacity st.ess_storage excess_ppa0
    let ess_storage1 := st.ess_storage + ess_charge
    let excess_ppa1 := excess_ppa0 - ess_charge
    if 0 < excess_ppa1 ∧ cfg.ppa_resell then
      { st with
        ppa_cost := ppa_cost1 - excess_ppa1 * cfg.ppa_price * cfg.ppa_resellrate,
        ess_storage := ess_storage1,
        total_ppa_purchased := total_ppa_purchased1,
        total_ppa_excess := st.total_ppa_excess + excess_ppa0,
        total_ppa_resold := st.total_ppa_resold + excess_ppa1,
        total_load_met_by_ppa := total_load_met1 }
    else
      { st with
        ppa_cost := ppa_cost1,
        ess_storage := ess_storage1,
        total_ppa_purchased := total_ppa_purchased1,
        total_ppa_excess := st.total_ppa_excess + excess_ppa0,
        total_load_met_by_ppa := total_load_met1 }
  else
    -- deficit branch (calculator.py lines 129-142)
    let ess_discharge := essDischargeAmt st.ess_storage remaining_load
    let ess_storage1 := st.ess_storage - ess_discharge
    let ess_cost1 := st.ess_cost + ess_discharge * cfg.ppa_price * cfg.ess_price
    let remaining_load1 := remaining_load - ess_discharge
    if 0 < remaining_load1 then
      { st with
        ppa_cost := ppa_cost1,
        grid_energy_cost := st.grid_energy_cost + remaining_load1 * hour_grid_rate,
        ess_cost := ess_cost1,
        ess_storage := ess_storage1,
        peak_grid_demand_kw := max st.peak_grid_demand_kw remaining_load1,
        total_ppa_purchased := total_ppa_purchased1,
        total_load_met_by_ppa := total_load_met1 }
    else
      { st with
        ppa_cost := ppa_cost1,
        ess_cost := ess_cost1,
        ess_storage := ess_storage1,
        total_ppa_purchased := total_ppa_purchased1,
        total_load_met_by_ppa := total_load_met1 }

/-- The engine loop over the aligned hourly series. -/
def runEngine (cfg : Config) (hours : List HourData) : EngineState :=
  hours.foldl (stepHour cfg) initState

/-- The function `calculate_ppa_cost` (calculator.py lines 5-167): returns
`(total_cost, ppa_cost, grid_total_cost, grid_demand_cost, ess_cost)`. -/
def calculate_ppa_cost (cfg : Config) (hours : List HourData) : ℚ × ℚ × ℚ × ℚ × ℚ :=
  let st := runEngine cfg hours
  let grid_demand_cost := st.peak_grid_demand_kw * cfg.contract_fee
  let grid_total_cost := st.grid_energy_cost + grid_demand_cost
  let total_cost := st.ppa_cost + grid_total_cost + st.ess_cost
  (total_cost, st.ppa_cost, grid_total_cost, grid_demand_cost, st.ess_cost)

/-- The statistic `actual_coverage` of the verbose statistics block (calculator.py line 153):
the one guarded per-kWh normalization of the engine, `0` when the total load
is not positive. -/
def actual_coverage (cfg : Config) (hours : List HourData) : ℚ :=
  let s := (hours.map (loadKwh cfg)).sum
  if 0 < s then (runEngine cfg hours).total_load_met_by_ppa / s else 0

/-- The grid energy purchased in one hour: the part of the post-ESS deficit
that is positive (calculator.py lines 139-141), `0` in excess hours. -/
def hourGridDemand (cfg : Config) (st : EngineState) (h : HourData) : ℚ :=
  let remaining_load := loadKwh cfg h - hourPurchase cfg h
  if remaining_load ≤ 0 then 0
  else
    let remaining_load1 := remaining_load - essDischargeAmt st.ess_storage remaining_load
    if 0 < remaining_load1 then remaining_load1 else 0

/-! ### Field-wise description of one engine step -/

lemma stepHour_ess_storage (cfg : Config) (st : EngineState) (h : HourData) :
    (stepHour cfg st h).ess_storage =
      if loadKwh cfg h - hourPurchase cfg h ≤ 0 then
        st.ess_storage +
          essChargeAmt cfg.ess_capacity st.ess_storage |loadKwh cfg h - hourPurchase cfg h|
      else
        st.ess_storage - essDischargeAmt st.ess_storage (loadKwh cfg h - hourPurchase cfg h) := by
  simp only [stepHour]
  split_ifs <;> rfl

lemma stepHour_ppa_cost (cfg : Config) (st : EngineState) (h : HourData) :
    (stepHour cfg st h).ppa_cost =
      if loadKwh cfg h - hourPurchase cfg h ≤ 0 then
        st.ppa_cost + hourPurchase cfg h * cfg.ppa_price -
          (if 0 < |loadKwh cfg h - hourPurchase cfg h| -
                essChargeAmt cfg.ess_capacity st.ess_storage
                  |loadKwh cfg h - hourPurchase cfg h| ∧ cfg.ppa_resell then
            (|loadKwh cfg h - hourPurchase cfg h| -
              essChargeAmt cfg.ess_capacity st.ess_storage
                |loadKwh cfg h - hourPurchase cfg h|) * cfg.ppa_price * cfg.ppa_resellrate
          else 0)
      else st.ppa_cost + hourPurchase cfg h * cfg.ppa_price := by
  simp only [stepHour]
  split_ifs <;> simp

lemma stepHour_peak (cfg : Config) (st : EngineState) (h : HourData)
    (hp : 0 ≤ st.peak_grid_demand_kw) :
    (stepHour cfg st h).peak_grid_demand_kw =
      max st.peak_grid_demand_kw (hourGridDemand cfg st h) := by
  simp only [stepHour, hourGridDemand]
  split_ifs <;> simp [max_eq_left hp]

lemma stepHour_grid_cost (cfg : Config) (st : EngineState) (h : HourData) :
    (stepHour cfg st h).grid_energy_cost =
      st.grid_energy_cost + hourGridDemand cfg st h * h.rate := by
  simp only [stepHour, hourGridDemand]
  split_ifs <;> simp

lemma stepHour_ess_cost (cfg : Config) (st : EngineState) (h : HourData) :
    (stepHour cfg st h).ess_cost =
      if loadKwh cfg h - hourPurchase cfg h ≤ 0 then st.ess_cost
      else
        st.ess_cost +
          essDischargeAmt st.ess_storage (loadKwh cfg h - hourPurchase cfg h) *
            cfg.ppa_price * cfg.ess_price := by
  simp only [stepHour]
  split_ifs <;> rfl

/-! ### Normal forms of the per-hour optional PPA purchase -/

/-- The engine's optional purchase in branch-free form. -/
lemma optionalPPA_eq (p m l r g : ℚ) :
    optionalPPA p m l r g =
      if 0 < g - g * m ∧ p < r ∧ 0 < l - g * m then min (g - g * m) (l - g * m)
      else 0 := by
  simp only [optionalPPA]
  rcases lt_or_le 0 (g - g * m) with ha | ha
  · rw [if_pos ha]
    by_cases hb : p < r ∧ 0 < l - g * m
    · rw [if_pos ⟨hb.1, lt_max_iff.mpr (Or.inr hb.2)⟩, if_pos ⟨ha, hb⟩,
        max_eq_right (le_of_lt hb.2)]
    · have hinner : ¬(p < r ∧ 0 < max 0 (l - g * m)) := by
        rintro ⟨h1, h2⟩
        rcases lt_max_iff.mp h2 with h3 | h3
        · exact lt_irrefl 0 h3
        · exact hb ⟨h1, h3⟩
      have houter : ¬(0 < g - g * m ∧ p < r ∧ 0 < l - g * m) := by
        rintro ⟨-, h1, h2⟩
        exact hb ⟨h1, h2⟩
      rw [if_neg hinner, if_neg houter]
  · rw [if_neg (not_lt.mpr ha), if_neg]
    rintro ⟨h1, -⟩
    exact absurd h1 (not_lt.mpr ha)

/-- The vectorized builder's optional purchase in branch-free form. -/
lemma optionalPPAColumns_eq (p m l r g : ℚ) :
    optionalPPAColumns p m l r g =
      if m < 1 ∧ p < r ∧ 0 < l - g * m then min (g - g * m) (l - g * m)
      else 0 := by
  simp only [optionalPPAColumns]
  by_cases hb : m < 1 ∧ p < r ∧ 0 < l - g * m
  · rw [if_pos ⟨hb.1, hb.2.1, lt_max_iff.mpr (Or.inr hb.2.2)⟩, if_pos hb,
      max_eq_right (le_of_lt hb.2.2)]
  · rw [if_neg, if_neg hb]
    rintro ⟨h1, h2, h3⟩
    rcases lt_max_iff.mp h3 with h4 | h4
    · exact lt_irrefl 0 h4
    · exact hb ⟨h1, h2, h4⟩

/-- With a nonnegative generation value, a positive optional-availability
forces `ppa_mintake < 1`. -/
lemma mintake_lt_one_of_avail {m g : ℚ} (hg : 0 ≤ g) (h : 0 < g - g * m) : m < 1 := by
  by_contra hm
  push_neg at hm
  nlinarith [mul_le_mul_of_nonneg_left hm hg]

/-- C1: in every hour, the optional PPA amount purchased is nonzero only when
`ppa_mintake < 1`, `ppa_price` is strictly below that hour's grid rate, and
there is unmet load after the mandatory purchase; whenever those conditions
hold the amount equals `min (ppa_gen_kwh - mandatory) (load_kwh - mandatory)`;
and the scalar engine loop and the vectorized scenario-columns builder compute
identical optional amounts. -/
theorem optional_ppa_purchase_policy (p m l r g : ℚ) (hg : 0 ≤ g) :
    (optionalPPA p m l r g ≠ 0 → m < 1 ∧ p < r ∧ 0 < l - g * m) ∧
    ((m < 1 ∧ p < r ∧ 0 < l - g * m) →
      optionalPPA p m l r g = min (g - g * m) (l - g * m)) ∧
    optionalPPA p m l r g = optionalPPAColumns p m l r g := by
  refine ⟨fun hne => ?_, fun hc => ?_, ?_⟩
  · rw [optionalPPA_eq] at hne
    by_cases hcond : 0 < g - g * m ∧ p < r ∧ 0 < l - g * m
    · exact ⟨mintake_lt_one_of_avail hg hcond.1, hcond.2⟩
    · exact absurd (if_neg hcond) hne
  · rw [optionalPPA_eq]
    rcases lt_or_le 0 (g - g * m) with ha | ha
    · rw [if_pos ⟨ha, hc.2⟩]
    · rw [if_neg (by rintro ⟨h1, -⟩; exact absurd h1 (not_lt.mpr ha))]
      have hg0 : g = 0 := by nlinarith [hc.1]
      rw [hg0]
      simp [min_eq_left (le_of_lt (by linarith [hc.2.2] : (0:ℚ) < l))]
  · rw [optionalPPA_eq, optionalPPAColumns_eq]
    by_cases hcol : m < 1 ∧ p < r ∧ 0 < l - g * m
    · rw [if_pos hcol]
      rcases lt_or_le 0 (g - g * m) with ha | ha
      · rw [if_pos ⟨ha, hcol.2⟩]
      · rw [if_neg (by rintro ⟨h1, -⟩; exact absurd h1 (not_lt.mpr ha))]
        have hg0 : g = 0 := by nlinarith [hcol.1]
        rw [hg0]
        simp [min_eq_left (le_of_lt (by linarith [hcol.2.2] : (0:ℚ) < l))]
    · rw [if_neg hcol, if_neg]
      rintro ⟨h1, h2⟩
      exact hcol ⟨mintake_lt_one_of_avail hg h1, h2⟩

/-- Witness for C1 at a concrete hour: price 100 below rate 150, mintake 1/2,
generation 1000 kWh, load 800 kWh — the optional purchase is
`min (1000 - 500) (800 - 500) = 300` in both implementations. -/
theorem optional_ppa_purchase_policy_witness :
    0 ≤ (1000 : ℚ) ∧
    optionalPPA 100 (1/2) 800 150 1000 = 300 ∧
    optionalPPA 100 (1/2) 800 150 1000 = optionalPPAColumns 100 (1/2) 800 150 1000 := by
  have h := optional_ppa_purchase_policy 100 (1/2) 800 150 1000 (by norm_num)
  refine ⟨by norm_num, ?_, h.2.2⟩
  rw [h.2.1 ⟨by norm_num, by norm_num, by norm_num⟩]
  norm_num

/-! ### Generic fold invariants -/

theorem foldl_inv {σ α : Type} (f : σ → α → σ) (Inv : σ → Prop)
    (hstep : ∀ s a, Inv s → Inv (f s a)) :
    ∀ (l : List α) (s : σ), Inv s → Inv (l.foldl f s)
  | [], _, hs => hs
  | a :: t, s, hs => foldl_inv f Inv hstep t (f s a) (hstep s a hs)

theorem foldl_rel {σ α : Type} (f₁ f₂ : σ → α → σ) (R : σ → σ → Prop)
    (hstep : ∀ s₁ s₂ a, R s₁ s₂ → R (f₁ s₁ a) (f₂ s₂ a)) :
    ∀ (l : List α) (s₁ s₂ : σ), R s₁ s₂ → R (l.foldl f₁ s₁) (l.foldl f₂ s₂)
  | [], _, _, hs => hs
  | a :: t, s₁, s₂, hs => foldl_rel f₁ f₂ R hstep t (f₁ s₁ a) (f₂ s₂ a) (hstep s₁ s₂ a hs)

/-! ### C3: the ESS state of charge stays within `[0, ess_capacity]` -/

lemma step_ess_bounds (cfg : Config) (st : EngineState) (h : HourData)
    (hcap : 0 ≤ cfg.ess_capacity)
    (h0 : 0 ≤ st.ess_storage) (h1 : st.ess_storage ≤ cfg.ess_capacity) :
    0 ≤ (stepHour cfg st h).ess_storage ∧
      (stepHour cfg st h).ess_storage ≤ cfg.ess_capacity := by
  rw [stepHour_ess_storage]
  split_ifs with hrl
  · set e0 := |loadKwh cfg h - hourPurchase cfg h| with he0
    have he0n : 0 ≤ e0 := abs_nonneg _
    unfold essChargeAmt
    split_ifs with hcs
    · constructor
      · have : (0:ℚ) ≤ min e0 (cfg.ess_capacity - st.ess_storage) :=
          le_min he0n (by linarith)
        linarith
      · have : min e0 (cfg.ess_capacity - st.ess_storage) ≤
            cfg.ess_capacity - st.ess_storage := min_le_right _ _
        linarith
    · simpa using ⟨h0, h1⟩
  · unfold essDischargeAmt
    split_ifs with hs
    · have hmin : min (loadKwh cfg h - hourPurchase cfg h) st.ess_storage ≤
          st.ess_storage := min_le_right _ _
      have hmin0 : (0:ℚ) ≤ min (loadKwh cfg h - hourPurchase cfg h) st.ess_storage :=
        le_min (by linarith [not_le.mp hrl]) (le_of_lt hs)
      constructor <;> linarith
    · simpa using ⟨h0, h1⟩

/-- C3: for every input series and every configuration with a nonnegative ESS
capacity, the state of charge satisfies `0 ≤ ess_storage ≤ ess_capacity`
before and after every hourly update (at every prefix of the run). -/
theorem ess_storage_bounded (cfg : Config) (hours : List HourData)
    (hcap : 0 ≤ cfg.ess_capacity) :
    ∀ n : ℕ, 0 ≤ (runEngine cfg (hours.take n)).ess_storage ∧
      (runEngine cfg (hours.take n)).ess_storage ≤ cfg.ess_capacity := by
  intro n
  exact foldl_inv (stepHour cfg)
    (fun st => 0 ≤ st.ess_storage ∧ st.ess_storage ≤ cfg.ess_capacity)
    (fun st a hst => step_ess_bounds cfg st a hcap hst.1 hst.2)
    (hours.take n) initState ⟨le_refl 0, hcap⟩

/-- Witness for C3: a two-hour run with a 500 kWh battery that charges in
hour 0 and discharges in hour 1; the bound holds after the first hour. -/
theorem ess_storage_bounded_witness :
    (0 : ℚ) ≤ (500 : ℚ) ∧
      (0 ≤ (runEngine
          { load_capacity_mw := 1, ppa_coverage := 1, contract_fee := 10000,
            ppa_price := 100, ppa_mintake := 1, ppa_resell := false,
            ppa_resellrate := 0, ess_price := (1:ℚ)/10, ess_capacity := 500 }
          ([⟨0, 1, 150, 0⟩, ⟨1, 0, 150, 0⟩].take 1)).ess_storage ∧
        (runEngine
          { load_capacity_mw := 1, ppa_coverage := 1, contract_fee := 10000,
            ppa_price := 100, ppa_mintake := 1, ppa_resell := false,
            ppa_resellrate := 0, ess_price := (1:ℚ)/10, ess_capacity := 500 }
          ([⟨0, 1, 150, 0⟩, ⟨1, 0, 150, 0⟩].take 1)).ess_storage ≤ 500) :=
  ⟨by norm_num,
    ess_storage_bounded
      { load_capacity_mw := 1, ppa_coverage := 1, contract_fee := 10000,
        ppa_price := 100, ppa_mintake := 1, ppa_resell := false,
        ppa_resellrate := 0, ess_price := (1:ℚ)/10, ess_capacity := 500 }
      [⟨0, 1, 150, 0⟩, ⟨1, 0, 150, 0⟩] (by norm_num) 1⟩

/-! ### C4: peak grid demand tracking -/

/-- The per-hour grid purchases along a run started from `st`. -/
def gridDemandsFrom (cfg : Config) : EngineState → List HourData → List ℚ
  | _, [] => []
  | st, h :: t => hourGridDemand cfg st h :: gridDemandsFrom cfg (stepHour cfg st h) t

lemma hourGridDemand_nonneg (cfg : Config) (st : EngineState) (h : HourData) :
    0 ≤ hourGridDemand cfg st h := by
  simp only [hourGridDemand]
  split_ifs with h1 h2
  · exact le_refl 0
  · exact le_of_lt h2
  · exact le_refl 0

lemma step_peak_nonneg (cfg : Config) (st : EngineState) (h : HourData)
    (hp : 0 ≤ st.peak_grid_demand_kw) : 0 ≤ (stepHour cfg st h).peak_grid_demand_kw := by
  rw [stepHour_peak cfg st h hp]
  exact le_trans hp (le_max_left _ _)

lemma run_peak_nonneg (cfg : Config) :
    ∀ (hours : List HourData) (st : EngineState), 0 ≤ st.peak_grid_demand_kw →
      0 ≤ (hours.foldl (stepHour cfg) st).peak_grid_demand_kw :=
  fun hours st h =>
    foldl_inv (stepHour cfg) (fun s => 0 ≤ s.peak_grid_demand_kw)
      (fun s a hs => step_peak_nonneg cfg s a hs) hours st h

lemma run_peak_eq (cfg : Config) :
    ∀ (hours : List HourData) (st : EngineState), 0 ≤ st.peak_grid_demand_kw →
      (hours.foldl (stepHour cfg) st).peak_grid_demand_kw =
        (gridDemandsFrom cfg st hours).foldl max st.peak_grid_demand_kw
  | [], st, _ => rfl
  | h :: t, st, hp => by
    have hstep := stepHour_peak cfg st h hp
    have hp' : 0 ≤ (stepHour cfg st h).peak_grid_demand_kw := step_peak_nonneg cfg st h hp
    simp only [List.foldl_cons, gridDemandsFrom]
    rw [run_peak_eq cfg t (stepHour cfg st h) hp', hstep]

lemma le_foldl_max (l : List ℚ) : ∀ a : ℚ,
    (∀ x ∈ l, x ≤ l.foldl max a) ∧ a ≤ l.foldl max a := by
  induction l with
  | nil => exact fun a => ⟨by simp, le_refl a⟩
  | cons h t ih =>
    intro a
    refine ⟨?_, ?_⟩
    · intro x hx
      rcases List.mem_cons.mp hx with rfl | hx
      · exact le_trans (le_max_right a x) (ih (max a x)).2
      · exact (ih (max a h)).1 x hx
    · exact le_trans (le_max_left a h) (ih (max a h)).2

lemma foldl_max_mem (l : List ℚ) : ∀ a : ℚ, l.foldl max a = a ∨ l.foldl max a ∈ l := by
  induction l with
  | nil => exact fun a => Or.inl rfl
  | cons h t ih =>
    intro a
    rcases ih (max a h) with heq | hmem
    · rcases max_choice a h with hc | hc
      · exact Or.inl (by rw [List.foldl_cons, heq, hc])
      · exact Or.inr (by rw [List.foldl_cons, heq, hc]; exact List.mem_cons_self _ _)
    · exact Or.inr (List.mem_cons_of_mem _ hmem)

/-- C4: within one engine run the running `peak_grid_demand_kw` is monotonically
non-decreasing across the hour sequence; at the end of the loop it equals the
fold of `max` over the per-hour grid purchases starting from `0` — an upper
bound of every hourly purchase that is either `0` or one of the purchases —
and the demand charge returned by `calculate_ppa_cost` is this final peak
times `contract_fee`. -/
theorem peak_tracking (cfg : Config) (hours : List HourData) :
    (∀ n : ℕ, (runEngine cfg (hours.take n)).peak_grid_demand_kw ≤
      (runEngine cfg (hours.take (n + 1))).peak_grid_demand_kw) ∧
    (runEngine cfg hours).peak_grid_demand_kw =
      (gridDemandsFrom cfg initState hours).foldl max 0 ∧
    (∀ d ∈ gridDemandsFrom cfg initState hours,
      d ≤ (runEngine cfg hours).peak_grid_demand_kw) ∧
    ((runEngine cfg hours).peak_grid_demand_kw = 0 ∨
      (runEngine cfg hours).peak_grid_demand_kw ∈ gridDemandsFrom cfg initState hours) ∧
    (calculate_ppa_cost cfg hours).2.2.2.1 =
      (runEngine cfg hours).peak_grid_demand_kw * cfg.contract_fee := by
  have hfin : (runEngine cfg hours).peak_grid_demand_kw =
      (gridDemandsFrom cfg initState hours).foldl max 0 :=
    run_peak_eq cfg hours initState (le_refl 0)
  refine ⟨?_, hfin, ?_, ?_, rfl⟩
  · intro n
    rw [List.take_succ]
    unfold runEngine
    rw [List.foldl_append]
    cases h2 : hours[n]? with
    | none => simp [h2]
    | some a =>
      have hp : 0 ≤ ((hours.take n).foldl (stepHour cfg) initState).peak_grid_demand_kw :=
        run_peak_nonneg cfg (hours.take n) initState (le_refl 0)
      simp only [Option.toList, List.foldl_cons, List.foldl_nil]
      rw [stepHour_peak cfg _ a hp]
      exact le_max_left _ _
  · intro d hd
    rw [hfin]
    exact (le_foldl_max (gridDemandsFrom cfg initState hours) 0).1 d hd
  · rw [hfin]
    exact foldl_max_mem (gridDemandsFrom cfg initState hours) 0

/-! ### C2: zero-coverage runs reduce to a pure grid-only calculation -/

lemma ppaGenKwh_zero (cfg : Config) (h : HourData) (hc : cfg.ppa_coverage = 0) :
    ppaGenKwh cfg h = 0 := by
  simp [ppaGenKwh, hc]

lemma hourPurchase_zero (cfg : Config) (h : HourData) (hc : cfg.ppa_coverage = 0) :
    hourPurchase cfg h = 0 := by
  have hg := ppaGenKwh_zero cfg h hc
  simp only [hourPurchase, hg, zero_mul, zero_add]
  rw [optionalPPA_eq]
  simp

lemma step_zero_coverage (cfg : Config) (st : EngineState) (h : HourData)
    (hc : cfg.ppa_coverage = 0) (he : cfg.ess_capacity = 0)
    (hs : st.ess_storage = 0) (hl : 0 ≤ loadKwh cfg h) :
    (stepHour cfg st h).ppa_cost = st.ppa_cost ∧
    (stepHour cfg st h).ess_cost = st.ess_cost ∧
    (stepHour cfg st h).ess_storage = 0 ∧
    (stepHour cfg st h).grid_energy_cost =
      st.grid_energy_cost + loadKwh cfg h * h.rate ∧
    (0 ≤ st.peak_grid_demand_kw →
      (stepHour cfg st h).peak_grid_demand_kw =
        max st.peak_grid_demand_kw (loadKwh cfg h)) := by
  have hP := hourPurchase_zero cfg h hc
  have hchg : ∀ s e : ℚ, s = 0 → essChargeAmt cfg.ess_capacity s e = 0 := by
    intro s e hs0
    simp [essChargeAmt, hs0, he]
  have hdis : ∀ s r : ℚ, s = 0 → essDischargeAmt s r = 0 := by
    intro s r hs0
    simp [essDischargeAmt, hs0]
  have hdem : hourGridDemand cfg st h = if loadKwh cfg h ≤ 0 then 0 else loadKwh cfg h := by
    simp only [hourGridDemand, hP, sub_zero, hdis st.ess_storage _ hs]
    split_ifs with h1 h2
    · rfl
    · rfl
    · exact absurd (not_lt.mp h2) h1
  refine ⟨?_, ?_, ?_, ?_, fun hp => ?_⟩
  · rw [stepHour_ppa_cost]
    rcases le_or_lt (loadKwh cfg h) 0 with h0 | h0
    · have hl0 : loadKwh cfg h = 0 := le_antisymm h0 hl
      rw [if_pos (by rw [hP, sub_zero]; exact h0)]
      rw [hchg st.ess_storage _ hs]
      simp [hP, hl0]
    · rw [if_neg (by rw [hP, sub_zero]; exact not_le.mpr h0)]
      simp [hP]
  · rw [stepHour_ess_cost]
    split_ifs with h0
    · rfl
    · rw [hdis st.ess_storage _ hs]
      ring
  · rw [stepHour_ess_storage]
    split_ifs with h0
    · rw [hchg st.ess_storage _ hs, hs, add_zero]
    · rw [hdis st.ess_storage _ hs, hs, sub_zero]
  · rw [stepHour_grid_cost, hdem]
    split_ifs with h0
    · have hl0 : loadKwh cfg h = 0 := le_antisymm h0 hl
      rw [hl0]
    · rfl
  · rw [stepHour_peak cfg st h hp, hdem]
    split_ifs with h0
    · have hl0 : loadKwh cfg h = 0 := le_antisymm h0 hl
      rw [hl0]
    · rfl

lemma run_zero_coverage (cfg : Config) (hc : cfg.ppa_coverage = 0)
    (he : cfg.ess_capacity = 0) :
    ∀ (hours : List HourData) (st : EngineState), st.ess_storage = 0 →
      0 ≤ st.peak_grid_demand_kw → (∀ h ∈ hours, 0 ≤ loadKwh cfg h) →
      (hours.foldl (stepHour cfg) st).ppa_cost = st.ppa_cost ∧
      (hours.foldl (stepHour cfg) st).ess_cost = st.ess_cost ∧
      (hours.foldl (stepHour cfg) st).grid_energy_cost =
        st.grid_energy_cost + (hours.map (fun h => loadKwh cfg h * h.rate)).sum ∧
      (hours.foldl (stepHour cfg) st).peak_grid_demand_kw =
        (hours.map (loadKwh cfg)).foldl max st.peak_grid_demand_kw
  | [], st, _, _, _ => by simp
  | h :: t, st, hs, hp, hl => by
    obtain ⟨e1, e2, e3, e4, e5⟩ :=
      step_zero_coverage cfg st h hc he hs (hl h (List.mem_cons_self _ _))
    have hpeak := e5 hp
    have hp' : 0 ≤ (stepHour cfg st h).peak_grid_demand_kw := by
      rw [hpeak]
      exact le_trans hp (le_max_left _ _)
    obtain ⟨i1, i2, i3, i4⟩ :=
      run_zero_coverage cfg hc he t (stepHour cfg st h) e3 hp'
        (fun x hx => hl x (List.mem_cons_of_mem _ hx))
    refine ⟨?_, ?_, ?_, ?_⟩
    · rw [List.foldl_cons, i1, e1]
    · rw [List.foldl_cons, i2, e2]
    · rw [List.foldl_cons, i3, e4, List.map_cons, List.sum_cons]
      ring
    · rw [List.foldl_cons, i4, hpeak, List.map_cons, List.foldl_cons]

/-- C2: with `ppa_coverage = 0` and `ess_capacity = 0`, `calculate_ppa_cost`
returns `ppa_cost = 0`, `ess_cost = 0`, and a total cost equal to
`Σ (load_kwh × grid_rate) + (max load_kwh) × contract_fee`. -/
theorem zero_coverage_grid_only (cfg : Config) (hours : List HourData)
    (hc : cfg.ppa_coverage = 0) (he : cfg.ess_capacity = 0)
    (hl : ∀ h ∈ hours, 0 ≤ loadKwh cfg h) :
    (calculate_ppa_cost cfg hours).2.1 = 0 ∧
    (calculate_ppa_cost cfg hours).2.2.2.2 = 0 ∧
    (calculate_ppa_cost cfg hours).1 =
      (hours.map (fun h => loadKwh cfg h * h.rate)).sum +
        ((hours.map (loadKwh cfg)).foldl max 0) * cfg.contract_fee := by
  obtain ⟨e1, e2, e3, e4⟩ :=
    run_zero_coverage cfg hc he hours initState rfl (le_refl 0) hl
  have hinit : initState.ppa_cost = 0 ∧ initState.ess_cost = 0 ∧
      initState.grid_energy_cost = 0 ∧ initState.peak_grid_demand_kw = 0 :=
    ⟨rfl, rfl, rfl, rfl⟩
  simp only [calculate_ppa_cost, runEngine] at *
  rw [e1, e2, e3, e4, hinit.1, hinit.2.1, hinit.2.2.1, hinit.2.2.2]
  refine ⟨rfl, rfl, by ring⟩

/-- The grid-only test scenario: 24 constant hours at full normalized load. -/
def hoursC2 : List HourData := List.replicate 24 ⟨1, 0, 150, 0⟩

/-- Configuration of the grid-only test scenario: 1 MW, contract fee 10000,
zero PPA coverage and no ESS. -/
def cfgC2 : Config :=
  { load_capacity_mw := 1, ppa_coverage := 0, contract_fee := 10000,
    ppa_price := 170, ppa_mintake := 1, ppa_resell := false,
    ppa_resellrate := 0, ess_price := 0, ess_capacity := 0 }

/-- Witness for C2: the 24-hour constant scenario at `grid_rate = 150` and
`contract_fee = 10000` totals `24000 × 150 + 1000 × 10000 = 13,600,000`. -/
theorem zero_coverage_grid_only_witness :
    (∀ h ∈ hoursC2, 0 ≤ loadKwh cfgC2 h) ∧
    (calculate_ppa_cost cfgC2 hoursC2).1 = 13600000 := by
  have hload : ∀ h ∈ hoursC2, 0 ≤ loadKwh cfgC2 h := by
    intro h hh
    simp only [hoursC2] at hh
    rw [List.eq_of_mem_replicate hh]
    norm_num [loadKwh, cfgC2]
  have h := zero_coverage_grid_only cfgC2 hoursC2 rfl rfl hload
  refine ⟨hload, ?_⟩
  rw [h.2.2]
  norm_num [hoursC2, cfgC2, loadKwh, List.replicate]

/-! ### C10: the ppa_cost accumulator is nondecreasing and never negative -/

theorem foldl_inv_mem {σ α : Type} (f : σ → α → σ) (Inv : σ → Prop) :
    ∀ l : List α, (∀ s a, a ∈ l → Inv s → Inv (f s a)) →
      ∀ s, Inv s → Inv (l.foldl f s)
  | [], _, _, hs => hs
  | a :: t, hstep, s, hs =>
    foldl_inv_mem f Inv t (fun s' b hb => hstep s' b (List.mem_cons_of_mem _ hb))
      (f s a) (hstep s a (List.mem_cons_self _ _) hs)

lemma optionalPPA_nonneg (p m l r g : ℚ) : 0 ≤ optionalPPA p m l r g := by
  rw [optionalPPA_eq]
  split_ifs with hc
  · exact le_min (le_of_lt hc.1) (le_of_lt hc.2.2)
  · exact le_refl 0

lemma hourPurchase_nonneg (cfg : Config) (h : HourData)
    (hm : 0 ≤ cfg.ppa_mintake) (hg : 0 ≤ ppaGenKwh cfg h) :
    0 ≤ hourPurchase cfg h :=
  add_nonneg (mul_nonneg hg hm) (optionalPPA_nonneg _ _ _ _ _)

lemma essChargeAmt_nonneg (cap s e : ℚ) (he : 0 ≤ e) : 0 ≤ essChargeAmt cap s e := by
  unfold essChargeAmt
  split_ifs with hc
  · exact le_min he (by linarith)
  · exact le_refl 0

lemma essChargeAmt_le (cap s e : ℚ) (he : 0 ≤ e) : essChargeAmt cap s e ≤ e := by
  unfold essChargeAmt
  split_ifs with hc
  · exact min_le_left _ _
  · exact he

lemma step_ppa_cost_le (cfg : Config) (st : EngineState) (h : HourData)
    (hp : 0 ≤ cfg.ppa_price) (hm : 0 ≤ cfg.ppa_mintake)
    (hr0 : 0 ≤ cfg.ppa_resellrate) (hr1 : cfg.ppa_resellrate ≤ 1)
    (hl : 0 ≤ loadKwh cfg h) (hg : 0 ≤ ppaGenKwh cfg h) :
    st.ppa_cost ≤ (stepHour cfg st h).ppa_cost := by
  have hPn : 0 ≤ hourPurchase cfg h := hourPurchase_nonneg cfg h hm hg
  rw [stepHour_ppa_cost]
  split_ifs with hrl hres
  · -- excess hour with resale of the post-charge leftover
    have habs : |loadKwh cfg h - hourPurchase cfg h| =
        hourPurchase cfg h - loadKwh cfg h := by
      rw [abs_of_nonpos hrl]
      ring
    rw [habs] at hres ⊢
    set e0 := hourPurchase cfg h - loadKwh cfg h with he0
    have he0n : 0 ≤ e0 := by rw [he0]; linarith
    set c := essChargeAmt cfg.ess_capacity st.ess_storage e0 with hc
    have hcn : 0 ≤ c := essChargeAmt_nonneg _ _ _ he0n
    have he1P : e0 - c ≤ hourPurchase cfg h := by
      have : e0 ≤ hourPurchase cfg h := by rw [he0]; linarith
      linarith
    have hstep1 : (e0 - c) * cfg.ppa_price * cfg.ppa_resellrate ≤
        (e0 - c) * cfg.ppa_price := by
      have hbase : 0 ≤ (e0 - c) * cfg.ppa_price :=
        mul_nonneg (le_of_lt hres.1) hp
      nlinarith
    have hstep2 : (e0 - c) * cfg.ppa_price ≤ hourPurchase cfg h * cfg.ppa_price :=
      mul_le_mul_of_nonneg_right he1P hp
    linarith
  · have : 0 ≤ hourPurchase cfg h * cfg.ppa_price := mul_nonneg hPn hp
    linarith
  · have : 0 ≤ hourPurchase cfg h * cfg.ppa_price := mul_nonneg hPn hp
    linarith

/-- C10: with nonnegative load and generation series, `ppa_price ≥ 0`,
`ppa_mintake ≥ 0` and `ppa_resellrate ∈ [0,1]`, the running `ppa_cost`
accumulator is nondecreasing hour over hour (each hour's resale revenue never
exceeds that hour's PPA purchase accrual) and hence never negative at any
point of the run. -/
theorem ppa_cost_never_negative (cfg : Config) (hours : List HourData)
    (hp : 0 ≤ cfg.ppa_price) (hm : 0 ≤ cfg.ppa_mintake)
    (hr0 : 0 ≤ cfg.ppa_resellrate) (hr1 : cfg.ppa_resellrate ≤ 1)
    (hdata : ∀ h ∈ hours, 0 ≤ loadKwh cfg h ∧ 0 ≤ ppaGenKwh cfg h) :
    ∀ n : ℕ, 0 ≤ (runEngine cfg (hours.take n)).ppa_cost ∧
      (runEngine cfg (hours.take n)).ppa_cost ≤
        (runEngine cfg (hours.take (n + 1))).ppa_cost := by
  intro n
  constructor
  · exact foldl_inv_mem (stepHour cfg) (fun st => 0 ≤ st.ppa_cost) (hours.take n)
      (fun st a ha hst => by
        have hmem := List.take_subset n hours ha
        exact le_trans hst
          (step_ppa_cost_le cfg st a hp hm hr0 hr1 (hdata a hmem).1 (hdata a hmem).2))
      initState (le_refl 0)
  · rw [List.take_succ]
    unfold runEngine
    rw [List.foldl_append]
    cases h2 : hours[n]? with
    | none => simp [h2]
    | some a =>
      have hmem : a ∈ hours := by
        obtain ⟨hlt, hget⟩ := List.getElem?_eq_some.mp h2
        rw [← hget]
        exact List.getElem_mem hlt
      simp only [Option.toList, List.foldl_cons, List.foldl_nil]
      exact step_ppa_cost_le cfg _ a hp hm hr0 hr1 (hdata a hmem).1 (hdata a hmem).2

/-- Witness for C10: a one-hour run with full resale at rate 0.9, where
the PPA over-generates; the accumulator stays nonnegative. -/
theorem ppa_cost_never_negative_witness :
    (0 : ℚ) ≤ 100 ∧
      0 ≤ (runEngine
        { load_capacity_mw := 1, ppa_coverage := 2, contract_fee := 10000,
          ppa_price := 100, ppa_mintake := 1, ppa_resell := true,
          ppa_resellrate := (9:ℚ)/10, ess_price := 0, ess_capacity := 0 }
        ([⟨(1:ℚ)/2, 1, 150, 0⟩].take 1)).ppa_cost := by
  refine ⟨by norm_num, ?_⟩
  refine (ppa_cost_never_negative
    { load_capacity_mw := 1, ppa_coverage := 2, contract_fee := 10000,
      ppa_price := 100, ppa_mintake := 1, ppa_resell := true,
      ppa_resellrate := (9:ℚ)/10, ess_price := 0, ess_capacity := 0 }
    [⟨(1:ℚ)/2, 1, 150, 0⟩] (by norm_num) (by norm_num) (by norm_num) (by norm_num)
    ?_ 1).1
  intro h hh
  simp only [List.mem_singleton] at hh
  rw [hh]
  norm_num [loadKwh, ppaGenKwh]

/-! ### C6: ppa_cost is monotone in the mandatory-take fraction -/

/-- The same configuration with the take-or-pay fraction replaced. -/
def withMintake (cfg : Config) (m : ℚ) : Config := { cfg with ppa_mintake := m }

/-- Effective resale rate: `ppa_resellrate` when resale is enabled, else 0. -/
def rEff (cfg : Config) : ℚ := if cfg.ppa_resell then cfg.ppa_resellrate else 0

lemma rEff_bounds (cfg : Config) (hr0 : 0 ≤ cfg.ppa_resellrate)
    (hr1 : cfg.ppa_resellrate ≤ 1) : 0 ≤ rEff cfg ∧ rEff cfg ≤ 1 := by
  unfold rEff
  split_ifs
  · exact ⟨hr0, hr1⟩
  · norm_num

lemma min_shift (a b c : ℚ) : a + min (b - a) (c - a) = min b c := by
  rw [← min_add_add_left]
  congr 1 <;> ring

lemma purchase_mono (p l r g m1 m2 : ℚ) (hg : 0 ≤ g) (hm : m1 ≤ m2) :
    g * m1 + optionalPPA p m1 l r g ≤ g * m2 + optionalPPA p m2 l r g := by
  rw [optionalPPA_eq, optionalPPA_eq]
  have hgm : g * m1 ≤ g * m2 := mul_le_mul_of_nonneg_left hm hg
  have hshift : ∀ m : ℚ, g * m + min (g - g * m) (l - g * m) = min g l := fun m =>
    min_shift (g * m) g l
  by_cases h2 : 0 < g - g * m2 ∧ p < r ∧ 0 < l - g * m2
  · have h1 : 0 < g - g * m1 ∧ p < r ∧ 0 < l - g * m1 :=
      ⟨by linarith, h2.2.1, by linarith⟩
    rw [if_pos h1, if_pos h2, hshift m1, hshift m2]
  · rw [if_neg h2]
    by_cases h1 : 0 < g - g * m1 ∧ p < r ∧ 0 < l - g * m1
    · rw [if_pos h1, hshift m1, add_zero]
      have hsplit : ¬0 < g - g * m2 ∨ ¬0 < l - g * m2 := by
        by_cases hA : 0 < g - g * m2
        · exact Or.inr fun hC => h2 ⟨hA, h1.2.1, hC⟩
        · exact Or.inl hA
      rcases hsplit with hA | hC
      · have := min_le_left g l
        have := not_lt.mp hA
        linarith
      · have := min_le_right g l
        have := not_lt.mp hC
        linarith
    · rw [if_neg h1, add_zero, add_zero]
      exact hgm

lemma hourPurchase_mono (cfg : Config) (m1 m2 : ℚ) (h : HourData)
    (hg : 0 ≤ ppaGenKwh cfg h) (hm : m1 ≤ m2) :
    hourPurchase (withMintake cfg m1) h ≤ hourPurchase (withMintake cfg m2) h :=
  purchase_mono cfg.ppa_price (loadKwh cfg h) h.rate (ppaGenKwh cfg h) m1 m2 hg hm

/-! Branch-form descriptions of one step, used by the coupled simulation. -/

lemma step_storage_excess (cfg : Config) (st : EngineState) (h : HourData)
    (hrl : loadKwh cfg h - hourPurchase cfg h ≤ 0) :
    (stepHour cfg st h).ess_storage =
      min (st.ess_storage + (hourPurchase cfg h - loadKwh cfg h))
        (max st.ess_storage cfg.ess_capacity) := by
  have habs : |loadKwh cfg h - hourPurchase cfg h| =
      hourPurchase cfg h - loadKwh cfg h := by
    rw [abs_of_nonpos hrl]
    ring
  have he0 : 0 ≤ hourPurchase cfg h - loadKwh cfg h := by linarith
  rw [stepHour_ess_storage, if_pos hrl, habs]
  unfold essChargeAmt
  split_ifs with hc
  · rw [max_eq_right (le_of_lt hc)]
    rcases min_cases (hourPurchase cfg h - loadKwh cfg h)
      (cfg.ess_capacity - st.ess_storage) with ⟨hmn, hle⟩ | ⟨hmn, hle⟩
    · rw [hmn, min_eq_left (by linarith)]
    · rw [hmn, min_eq_right (by linarith)]
      ring
  · rw [max_eq_left (not_lt.mp hc), add_zero,
      min_eq_right (by linarith)]

lemma step_ppa_cost_excess (cfg : Config) (st : EngineState) (h : HourData)
    (hrl : loadKwh cfg h - hourPurchase cfg h ≤ 0) :
    (stepHour cfg st h).ppa_cost =
      st.ppa_cost + hourPurchase cfg h * cfg.ppa_price -
        cfg.ppa_price * rEff cfg *
          ((hourPurchase cfg h - loadKwh cfg h) -
            essChargeAmt cfg.ess_capacity st.ess_storage
              (hourPurchase cfg h - loadKwh cfg h)) := by
  have habs : |loadKwh cfg h - hourPurchase cfg h| =
      hourPurchase cfg h - loadKwh cfg h := by
    rw [abs_of_nonpos hrl]
    ring
  have he0 : 0 ≤ hourPurchase cfg h - loadKwh cfg h := by linarith
  have he1 : 0 ≤ hourPurchase cfg h - loadKwh cfg h -
      essChargeAmt cfg.ess_capacity st.ess_storage
        (hourPurchase cfg h - loadKwh cfg h) := by
    have := essChargeAmt_le cfg.ess_capacity st.ess_storage _ he0
    linarith
  rw [stepHour_ppa_cost, if_pos hrl, habs]
  split_ifs with hcond
  · have hres : cfg.ppa_resell = true := hcond.2
    unfold rEff
    rw [if_pos hres]
    ring
  · rcases hresb : cfg.ppa_resell with _ | _
    · unfold rEff
      rw [hresb]
      simp
    · have he10 : hourPurchase cfg h - loadKwh cfg h -
          essChargeAmt cfg.ess_capacity st.ess_storage
            (hourPurchase cfg h - loadKwh cfg h) = 0 := by
        rcases lt_or_le 0 (hourPurchase cfg h - loadKwh cfg h -
            essChargeAmt cfg.ess_capacity st.ess_storage
              (hourPurchase cfg h - loadKwh cfg h)) with hpos | hle
        · exact absurd ⟨hpos, hresb⟩ hcond
        · linarith
      rw [he10]
      ring

lemma step_storage_deficit (cfg : Config) (st : EngineState) (h : HourData)
    (hrl : 0 < loadKwh cfg h - hourPurchase cfg h) (hs : 0 ≤ st.ess_storage) :
    (stepHour cfg st h).ess_storage =
      max (st.ess_storage - (loadKwh cfg h - hourPurchase cfg h)) 0 := by
  rw [stepHour_ess_storage, if_neg (not_le.mpr hrl)]
  unfold essDischargeAmt
  split_ifs with hc
  · rcases min_cases (loadKwh cfg h - hourPurchase cfg h) st.ess_storage with
      ⟨hmn, hle⟩ | ⟨hmn, hle⟩
    · rw [hmn, max_eq_left (by linarith)]
    · rw [hmn, max_eq_right (by linarith)]
      ring
  · have hs0 : st.ess_storage = 0 := le_antisymm (not_lt.mp hc) hs
    rw [hs0]
    rw [max_eq_right (by linarith), sub_zero]

lemma step_ppa_cost_deficit (cfg : Config) (st : EngineState) (h : HourData)
    (hrl : 0 < loadKwh cfg h - hourPurchase cfg h) :
    (stepHour cfg st h).ppa_cost =
      st.ppa_cost + hourPurchase cfg h * cfg.ppa_price := by
  rw [stepHour_ppa_cost, if_neg (not_le.mpr hrl)]

lemma step_storage_excess_charge (cfg : Config) (st : EngineState) (h : HourData)
    (hrl : loadKwh cfg h - hourPurchase cfg h ≤ 0) :
    (stepHour cfg st h).ess_storage =
      st.ess_storage +
        essChargeAmt cfg.ess_capacity st.ess_storage
          (hourPurchase cfg h - loadKwh cfg h) := by
  have habs : |loadKwh cfg h - hourPurchase cfg h| =
      hourPurchase cfg h - loadKwh cfg h := by
    rw [abs_of_nonpos hrl]
    ring
  rw [stepHour_ess_storage, if_pos hrl, habs]

lemma withMintake_loadKwh (cfg : Config) (m : ℚ) (h : HourData) :
    loadKwh (withMintake cfg m) h = loadKwh cfg h := rfl

lemma withMintake_ppaGenKwh (cfg : Config) (m : ℚ) (h : HourData) :
    ppaGenKwh (withMintake cfg m) h = ppaGenKwh cfg h := rfl

lemma withMintake_price (cfg : Config) (m : ℚ) :
    (withMintake cfg m).ppa_price = cfg.ppa_price := rfl

lemma withMintake_cap (cfg : Config) (m : ℚ) :
    (withMintake cfg m).ess_capacity = cfg.ess_capacity := rfl

lemma withMintake_rEff (cfg : Config) (m : ℚ) :
    rEff (withMintake cfg m) = rEff cfg := rfl

/-- One coupled hour of two runs differing only in `ppa_mintake`: the
lower-take run keeps a smaller store, and the cost gap dominates the
(price × resale rate)-weighted storage gap. -/
lemma step_mintake_rel (cfg : Config) (m1 m2 : ℚ) (h : HourData)
    (st1 st2 : EngineState)
    (hm : m1 ≤ m2) (hp : 0 ≤ cfg.ppa_price)
    (hr0 : 0 ≤ rEff cfg) (hr1 : rEff cfg ≤ 1)
    (hl : 0 ≤ loadKwh cfg h) (hg : 0 ≤ ppaGenKwh cfg h)
    (h1 : 0 ≤ st1.ess_storage)
    (h2 : st1.ess_storage ≤ st2.ess_storage)
    (h3 : cfg.ppa_price * rEff cfg * (st2.ess_storage - st1.ess_storage) ≤
      st2.ppa_cost - st1.ppa_cost) :
    0 ≤ (stepHour (withMintake cfg m1) st1 h).ess_storage ∧
    (stepHour (withMintake cfg m1) st1 h).ess_storage ≤
      (stepHour (withMintake cfg m2) st2 h).ess_storage ∧
    cfg.ppa_price * rEff cfg *
        ((stepHour (withMintake cfg m2) st2 h).ess_storage -
          (stepHour (withMintake cfg m1) st1 h).ess_storage) ≤
      (stepHour (withMintake cfg m2) st2 h).ppa_cost -
        (stepHour (withMintake cfg m1) st1 h).ppa_cost := by
  have hP : hourPurchase (withMintake cfg m1) h ≤ hourPurchase (withMintake cfg m2) h :=
    hourPurchase_mono cfg m1 m2 h hg hm
  have hqp : cfg.ppa_price * rEff cfg ≤ cfg.ppa_price := mul_le_of_le_one_right hp hr1
  have hq0 : 0 ≤ cfg.ppa_price * rEff cfg := mul_nonneg hp hr0
  have hkey : cfg.ppa_price * rEff cfg *
      (hourPurchase (withMintake cfg m2) h - hourPurchase (withMintake cfg m1) h) ≤
      cfg.ppa_price *
        (hourPurchase (withMintake cfg m2) h - hourPurchase (withMintake cfg m1) h) :=
    mul_le_mul_of_nonneg_right hqp (by linarith)
  rcases le_or_lt (loadKwh cfg h - hourPurchase (withMintake cfg m1) h) 0 with hrl1 | hrl1
  · -- both runs are in the excess branch
    have hrl2 : loadKwh cfg h - hourPurchase (withMintake cfg m2) h ≤ 0 := by linarith
    have hA1 := step_storage_excess_charge (withMintake cfg m1) st1 h hrl1
    have hA2 := step_storage_excess_charge (withMintake cfg m2) st2 h hrl2
    have hM1 := step_storage_excess (withMintake cfg m1) st1 h hrl1
    have hM2 := step_storage_excess (withMintake cfg m2) st2 h hrl2
    have hB1 := step_ppa_cost_excess (withMintake cfg m1) st1 h hrl1
    have hB2 := step_ppa_cost_excess (withMintake cfg m2) st2 h hrl2
    simp only [withMintake_loadKwh, withMintake_cap, withMintake_price,
      withMintake_rEff] at hA1 hA2 hM1 hM2 hB1 hB2
    have hc1n : 0 ≤ essChargeAmt cfg.ess_capacity st1.ess_storage
        (hourPurchase (withMintake cfg m1) h - loadKwh cfg h) :=
      essChargeAmt_nonneg _ _ _ (by linarith)
    have hc2n : 0 ≤ essChargeAmt cfg.ess_capacity st2.ess_storage
        (hourPurchase (withMintake cfg m2) h - loadKwh cfg h) :=
      essChargeAmt_nonneg _ _ _ (by linarith)
    refine ⟨?_, ?_, ?_⟩
    · rw [hA1]
      linarith
    · rw [hM1, hM2]
      exact min_le_min (by linarith) (max_le_max h2 (le_refl _))
    · rw [hA1, hA2, hB1, hB2]
      linarith [h3, hkey]
  · rcases le_or_lt (loadKwh cfg h - hourPurchase (withMintake cfg m2) h) 0 with hrl2 | hrl2
    · -- run 1 in deficit, run 2 in excess
      have hs2n : 0 ≤ st2.ess_storage := le_trans h1 h2
      have hD1 := step_storage_deficit (withMintake cfg m1) st1 h hrl1 h1
      have hC1 := step_ppa_cost_deficit (withMintake cfg m1) st1 h hrl1
      have hA2 := step_storage_excess_charge (withMintake cfg m2) st2 h hrl2
      have hB2 := step_ppa_cost_excess (withMintake cfg m2) st2 h hrl2
      simp only [withMintake_loadKwh, withMintake_cap, withMintake_price,
        withMintake_rEff] at hD1 hC1 hA2 hB2
      have hc2n : 0 ≤ essChargeAmt cfg.ess_capacity st2.ess_storage
          (hourPurchase (withMintake cfg m2) h - loadKwh cfg h) :=
        essChargeAmt_nonneg _ _ _ (by linarith)
      have hup : max (st1.ess_storage -
          (loadKwh cfg h - hourPurchase (withMintake cfg m1) h)) 0 ≤ st1.ess_storage :=
        max_le (by linarith) h1
      have hlow : st1.ess_storage -
          (loadKwh cfg h - hourPurchase (withMintake cfg m1) h) ≤
          max (st1.ess_storage -
            (loadKwh cfg h - hourPurchase (withMintake cfg m1) h)) 0 :=
        le_max_left _ _
      refine ⟨?_, ?_, ?_⟩
      · rw [hD1]
        exact le_max_right _ _
      · rw [hD1, hA2]
        linarith
      · rw [hD1, hA2, hC1, hB2]
        have hX0 : 0 ≤ (hourPurchase (withMintake cfg m2) h - loadKwh cfg h) +
            (st1.ess_storage - max (st1.ess_storage -
              (loadKwh cfg h - hourPurchase (withMintake cfg m1) h)) 0) := by
          linarith
        have hX1 : (hourPurchase (withMintake cfg m2) h - loadKwh cfg h) +
            (st1.ess_storage - max (st1.ess_storage -
              (loadKwh cfg h - hourPurchase (withMintake cfg m1) h)) 0) ≤
            hourPurchase (withMintake cfg m2) h - hourPurchase (withMintake cfg m1) h := by
          linarith
        have hqX : cfg.ppa_price * rEff cfg *
            ((hourPurchase (withMintake cfg m2) h - loadKwh cfg h) +
              (st1.ess_storage - max (st1.ess_storage -
                (loadKwh cfg h - hourPurchase (withMintake cfg m1) h)) 0)) ≤
            cfg.ppa_price *
              (hourPurchase (withMintake cfg m2) h - hourPurchase (withMintake cfg m1) h) :=
          le_trans (mul_le_mul_of_nonneg_right hqp hX0)
            (mul_le_mul_of_nonneg_left hX1 hp)
        linarith [h3, hqX]
    · -- both runs are in the deficit branch
      have hs2n : 0 ≤ st2.ess_storage := le_trans h1 h2
      have hD1 := step_storage_deficit (withMintake cfg m1) st1 h hrl1 h1
      have hD2 := step_storage_deficit (withMintake cfg m2) st2 h hrl2 hs2n
      have hC1 := step_ppa_cost_deficit (withMintake cfg m1) st1 h hrl1
      have hC2 := step_ppa_cost_deficit (withMintake cfg m2) st2 h hrl2
      simp only [withMintake_loadKwh, withMintake_price] at hD1 hD2 hC1 hC2
      have hd : max (st2.ess_storage -
          (loadKwh cfg h - hourPurchase (withMintake cfg m2) h)) 0 ≤
          max (st1.ess_storage -
            (loadKwh cfg h - hourPurchase (withMintake cfg m1) h)) 0 +
          ((st2.ess_storage - st1.ess_storage) +
            (hourPurchase (withMintake cfg m2) h - hourPurchase (withMintake cfg m1) h)) := by
        refine max_le ?_ ?_
        · have := le_max_left (st1.ess_storage -
            (loadKwh cfg h - hourPurchase (withMintake cfg m1) h)) 0
          linarith
        · have := le_max_right (st1.ess_storage -
            (loadKwh cfg h - hourPurchase (withMintake cfg m1) h)) 0
          linarith
      refine ⟨?_, ?_, ?_⟩
      · rw [hD1]
        exact le_max_right _ _
      · rw [hD1, hD2]
        exact max_le_max (by linarith) (le_refl 0)
      · rw [hD1, hD2, hC1, hC2]
        have hmul : cfg.ppa_price * rEff cfg *
            (max (st2.ess_storage -
              (loadKwh cfg h - hourPurchase (withMintake cfg m2) h)) 0 -
             max (st1.ess_storage -
              (loadKwh cfg h - hourPurchase (withMintake cfg m1) h)) 0) ≤
            cfg.ppa_price * rEff cfg *
              ((st2.ess_storage - st1.ess_storage) +
                (hourPurchase (withMintake cfg m2) h - hourPurchase (withMintake cfg m1) h)) :=
          mul_le_mul_of_nonneg_left (by linarith) hq0
        linarith [h3, hkey, hmul]

theorem foldl_rel_mem {σ α : Type} (f₁ f₂ : σ → α → σ) (R : σ → σ → Prop) :
    ∀ l : List α, (∀ s₁ s₂ a, a ∈ l → R s₁ s₂ → R (f₁ s₁ a) (f₂ s₂ a)) →
      ∀ s₁ s₂, R s₁ s₂ → R (l.foldl f₁ s₁) (l.foldl f₂ s₂)
  | [], _, _, _, hs => hs
  | a :: t, hstep, s₁, s₂, hs =>
    foldl_rel_mem f₁ f₂ R t
      (fun u₁ u₂ b hb => hstep u₁ u₂ b (List.mem_cons_of_mem _ hb))
      (f₁ s₁ a) (f₂ s₂ a) (hstep s₁ s₂ a (List.mem_cons_self _ _) hs)

/-- C6: for a fixed nonnegative input series and a configuration with
`ppa_price ≥ 0` and `ppa_resellrate ∈ [0,1]`, if `0 ≤ m1 ≤ m2 ≤ 1` then the
`ppa_cost` returned by `calculate_ppa_cost` with `ppa_mintake = m1` is at most
the one returned with `ppa_mintake = m2`, all other parameters held equal. -/
theorem ppa_cost_monotone_in_mintake (cfg : Config) (hours : List HourData)
    (m1 m2 : ℚ) (hm0 : 0 ≤ m1) (hm : m1 ≤ m2) (hm1 : m2 ≤ 1)
    (hp : 0 ≤ cfg.ppa_price)
    (hr0 : 0 ≤ cfg.ppa_resellrate) (hr1 : cfg.ppa_resellrate ≤ 1)
    (hdata : ∀ h ∈ hours, 0 ≤ loadKwh cfg h ∧ 0 ≤ ppaGenKwh cfg h) :
    (calculate_ppa_cost (withMintake cfg m1) hours).2.1 ≤
      (calculate_ppa_cost (withMintake cfg m2) hours).2.1 := by
  obtain ⟨hre0, hre1⟩ := rEff_bounds cfg hr0 hr1
  have hrel := foldl_rel_mem (stepHour (withMintake cfg m1))
    (stepHour (withMintake cfg m2))
    (fun st1 st2 => 0 ≤ st1.ess_storage ∧ st1.ess_storage ≤ st2.ess_storage ∧
      cfg.ppa_price * rEff cfg * (st2.ess_storage - st1.ess_storage) ≤
        st2.ppa_cost - st1.ppa_cost)
    hours
    (fun st1 st2 a ha hR =>
      step_mintake_rel cfg m1 m2 a st1 st2 hm hp hre0 hre1
        (hdata a ha).1 (hdata a ha).2 hR.1 hR.2.1 hR.2.2)
    initState initState ⟨le_refl 0, le_refl 0, by norm_num⟩
  have hgap := hrel.2.2
  have hds : 0 ≤ (hours.foldl (stepHour (withMintake cfg m2)) initState).ess_storage -
      (hours.foldl (stepHour (withMintake cfg m1)) initState).ess_storage := by
    linarith [hrel.2.1]
  have hsn : 0 ≤ cfg.ppa_price * rEff cfg *
      ((hours.foldl (stepHour (withMintake cfg m2)) initState).ess_storage -
        (hours.foldl (stepHour (withMintake cfg m1)) initState).ess_storage) :=
    mul_nonneg (mul_nonneg hp hre0) hds
  show (hours.foldl (stepHour (withMintake cfg m1)) initState).ppa_cost ≤
    (hours.foldl (stepHour (withMintake cfg m2)) initState).ppa_cost
  linarith

/-- The two-hour series of the C6 witness: an over-generating solar hour
followed by a pure-load hour. -/
def hoursC6 : List HourData := [⟨(1:ℚ)/2, 1, 150, 0⟩, ⟨1, 0, 150, 0⟩]

/-- The configuration of the C6 witness: resale enabled at 90 % of the PPA
price and a 300 kWh battery. -/
def cfgC6 : Config :=
  { load_capacity_mw := 1, ppa_coverage := 1, contract_fee := 10000,
    ppa_price := 100, ppa_mintake := 1, ppa_resell := true,
    ppa_resellrate := (9:ℚ)/10, ess_price := (1:ℚ)/10, ess_capacity := 300 }

/-- Witness for C6 at mintake fractions 1/4 ≤ 3/4 on a concrete two-hour run
with resale and storage. -/
theorem ppa_cost_monotone_in_mintake_witness :
    ((0:ℚ) ≤ 1/4 ∧ (1/4:ℚ) ≤ 3/4 ∧ (3/4:ℚ) ≤ 1 ∧
      0 ≤ cfgC6.ppa_price ∧ 0 ≤ cfgC6.ppa_resellrate ∧ cfgC6.ppa_resellrate ≤ 1 ∧
      (∀ h ∈ hoursC6, 0 ≤ loadKwh cfgC6 h ∧ 0 ≤ ppaGenKwh cfgC6 h)) ∧
    (calculate_ppa_cost (withMintake cfgC6 (1/4)) hoursC6).2.1 ≤
      (calculate_ppa_cost (withMintake cfgC6 (3/4)) hoursC6).2.1 := by
  have hdata : ∀ h ∈ hoursC6, 0 ≤ loadKwh cfgC6 h ∧ 0 ≤ ppaGenKwh cfgC6 h := by
    intro h hh
    simp only [hoursC6, List.mem_cons, List.mem_singleton] at hh
    rcases hh with rfl | rfl | hh
    · constructor <;> norm_num [loadKwh, ppaGenKwh, cfgC6]
    · constructor <;> norm_num [loadKwh, ppaGenKwh, cfgC6]
    · exact absurd hh (List.not_mem_nil h)
  refine ⟨⟨by norm_num, by norm_num, by norm_num, by norm_num [cfgC6],
    by norm_num [cfgC6], by norm_num [cfgC6], hdata⟩, ?_⟩
  exact ppa_cost_monotone_in_mintake cfgC6 hoursC6 (1/4) (3/4)
    (by norm_num) (by norm_num) (by norm_num) (by norm_num [cfgC6])
    (by norm_num [cfgC6]) (by norm_num [cfgC6]) hdata

/-! ### The analyzer layer (src/libs/analyzer.py) -/

/-- Modelled from the spec: `src/libs/analyzer.py` calls an emission-aware
`calculate_ppa_cost` (six return values, an emission series input) that is
missing from `src/libs/calculator.py`. Following the spec's step 6, each hour
accrues `remaining_grid_purchase_this_hour × emission_factor` to total
emissions (PPA energy assumed zero-emission); everything else is the engine
step of the source. -/
def stepHourEm (cfg : Config) (st : EngineState × ℚ) (h : HourData) : EngineState × ℚ :=
  (stepHour cfg st.1 h, st.2 + hourGridDemand cfg st.1 h * h.emission)

/-- The emission-aware engine run (spec-modelled, see `stepHourEm`). -/
def runEngineEm (cfg : Config) (hours : List HourData) : EngineState × ℚ :=
  hours.foldl (stepHourEm cfg) (initState, 0)

/-- The six values returned by the emission-aware engine, in the order the
analyzer destructures them. -/
structure EmResult where
  total_cost : ℚ
  ppa_cost : ℚ
  grid_cost : ℚ
  grid_demand_cost : ℚ
  ess_cost : ℚ
  total_emissions : ℚ
deriving DecidableEq

/-- Modelled from the spec: the emission-aware `calculate_ppa_cost` called by
the analyzer (see `stepHourEm`). -/
def calculate_ppa_cost_em (cfg : Config) (hours : List HourData) : EmResult :=
  let st := runEngineEm cfg hours
  let grid_demand_cost := st.1.peak_grid_demand_kw * cfg.contract_fee
  let grid_total_cost := st.1.grid_energy_cost + grid_demand_cost
  let total_cost := st.1.ppa_cost + grid_total_cost + st.1.ess_cost
  ⟨total_cost, st.1.ppa_cost, grid_total_cost, grid_demand_cost, st.1.ess_cost, st.2⟩

/-- An unguarded Python division: at a zero denominator the Python result is a
non-finite float or a `ZeroDivisionError`, not a rational value and not a
defined sentinel; modelled as `none`. -/
def pyDiv (a b : ℚ) : Option ℚ := if b = 0 then none else some (a / b)

/-- One entry of the analyzer's `results_summary`
(analyzer.py lines 67-86 and 153-172). -/
structure ScenarioResult where
  ppa_percent : ℕ
  total_cost : ℚ
  ppa_cost : ℚ
  grid_cost : ℚ
  grid_demand_cost : ℚ
  ess_cost : ℚ
  carbon_cost : ℚ
  total_cost_with_carbon : ℚ
  total_electricity_kwh : ℚ
  total_cost_per_kwh : Option ℚ
  ppa_cost_per_kwh : Option ℚ
  grid_energy_cost_per_kwh : Option ℚ
  grid_demand_cost_per_kwh : Option ℚ
  ess_cost_per_kwh : Option ℚ
  carbon_cost_per_kwh : Option ℚ
  total_cost_with_carbon_per_kwh : Option ℚ
  total_emissions : ℚ
  emissions_per_kwh : Option ℚ
deriving DecidableEq

/-- The configuration dictionary entries used by the analyzer. -/
structure AnalyzerConfig where
  load_capacity_mw : ℚ
  ppa_range_start : ℕ
  ppa_range_end : ℕ
  ppa_range_step : ℕ
  ppa_price : ℚ
  ppa_mintake : ℚ
  ppa_resell : Bool
  ppa_resellrate : ℚ
  ess_price : ℚ
  ess_capacity : ℚ
  carbon_price : ℚ
deriving DecidableEq

/-- Python `range(start, stop, step)` for a positive step. -/
def pyRange (start stop step : ℕ) : List ℕ :=
  (List.range ((stop - start + step - 1) / step)).map (fun i => start + i * step)

/-- The engine configuration the analyzer builds for one coverage level. -/
def cfgOfAnalyzer (acfg : AnalyzerConfig) (contract_fee ppa_coverage ess_capacity_kwh : ℚ) :
    Config :=
  { load_capacity_mw := acfg.load_capacity_mw, ppa_coverage := ppa_coverage,
    contract_fee := contract_fee, ppa_price := acfg.ppa_price,
    ppa_mintake := acfg.ppa_mintake, ppa_resell := acfg.ppa_resell,
    ppa_resellrate := acfg.ppa_resellrate, ess_price := acfg.ess_price,
    ess_capacity := ess_capacity_kwh }

/-- One result record of the analyzer loop body
(analyzer.py lines 43-86; identically lines 130-172 for the ESS variant). -/
def scenarioRecord (acfg : AnalyzerConfig) (contract_fee : ℚ) (hours : List HourData)
    (ess_capacity_kwh : ℚ) (ppa_percent : ℕ) : ScenarioResult :=
  let ppa_coverage := (ppa_percent : ℚ) / 100
  let r := calculate_ppa_cost_em
    (cfgOfAnalyzer acfg contract_fee ppa_coverage ess_capacity_kwh) hours
  let total_electricity_kwh := acfg.load_capacity_mw * 1000 * (hours.map (·.load)).sum
  let carbon_cost := r.total_emissions / 1000 * acfg.carbon_price
  let total_cost_with_carbon := r.total_cost + carbon_cost
  { ppa_percent := ppa_percent,
    total_cost := r.total_cost, ppa_cost := r.ppa_cost, grid_cost := r.grid_cost,
    grid_demand_cost := r.grid_demand_cost, ess_cost := r.ess_cost,
    carbon_cost := carbon_cost, total_cost_with_carbon := total_cost_with_carbon,
    total_electricity_kwh := total_electricity_kwh,
    total_cost_per_kwh := pyDiv r.total_cost total_electricity_kwh,
    ppa_cost_per_kwh := pyDiv r.ppa_cost total_electricity_kwh,
    grid_energy_cost_per_kwh :=
      pyDiv (r.grid_cost - r.grid_demand_cost) total_electricity_kwh,
    grid_demand_cost_per_kwh := pyDiv r.grid_demand_cost total_electricity_kwh,
    ess_cost_per_kwh := pyDiv r.ess_cost total_electricity_kwh,
    carbon_cost_per_kwh := pyDiv carbon_cost total_electricity_kwh,
    total_cost_with_carbon_per_kwh :=
      pyDiv total_cost_with_carbon total_electricity_kwh,
    total_emissions := r.total_emissions,
    emissions_per_kwh := pyDiv r.total_emissions total_electricity_kwh }

/-- The sweep `run_scenario_analysis` (analyzer.py lines 8-88): sweeps the coverage
range with `ess_capacity = 0`. -/
def run_scenario_analysis (acfg : AnalyzerConfig) (contract_fee : ℚ)
    (hours : List HourData) : List ScenarioResult :=
  (pyRange acfg.ppa_range_start (acfg.ppa_range_end + 1) acfg.ppa_range_step).map
    (scenarioRecord acfg contract_fee hours 0)

/-- The sweep `run_ess_analysis` (analyzer.py lines 91-174): the ESS capacity is derived
once from the peak of the (nonnegative, normalized) solar series. -/
def run_ess_analysis (acfg : AnalyzerConfig) (contract_fee : ℚ)
    (hours : List HourData) : List ScenarioResult × ℚ × ℚ :=
  let peak_solar_mw := ((hours.map (·.solar)).foldl max 0) * acfg.load_capacity_mw
  let ess_capacity_kwh := peak_solar_mw * acfg.ess_capacity * 1000
  ((pyRange acfg.ppa_range_start (acfg.ppa_range_end + 1) acfg.ppa_range_step).map
      (scenarioRecord acfg contract_fee hours ess_capacity_kwh),
    ess_capacity_kwh, peak_solar_mw)

/-- The cost key `find_optimal_scenario` minimizes: `total_cost_with_carbon`
when `include_carbon` is requested and the first record has a positive carbon
cost, else `total_cost` (analyzer.py lines 194-206). -/
def optKey (results : List ScenarioResult) (include_carbon : Bool) :
    ScenarioResult → ℚ :=
  match results with
  | [] => (·.total_cost)
  | r0 :: _ =>
    if include_carbon && decide (0 < r0.carbon_cost) then (·.total_cost_with_carbon)
    else (·.total_cost)

/-- Python's `min` over a list with a key function: a linear scan replacing
the running best only on a strictly smaller key, so the first minimum wins. -/
def pyMinBy (key : ScenarioResult → ℚ) : ScenarioResult → List ScenarioResult → ScenarioResult
  | best, [] => best
  | best, r :: rs => pyMinBy key (if key r < key best then r else best) rs

/-- The selector `find_optimal_scenario` (analyzer.py lines 177-208): returns
`(ppa_percent, cost)` of the argmin; Python raises on an empty list,
modelled as `none`. -/
def find_optimal_scenario (results : List ScenarioResult) (include_carbon : Bool) :
    Option (ℕ × ℚ) :=
  match results with
  | [] => none
  | r0 :: rs =>
    let key := optKey (r0 :: rs) include_carbon
    let best := pyMinBy key r0 rs
    some (best.ppa_percent, key best)

/-! ### C5: carbon accounting of the scenario sweep -/

/-- The grid purchase of one hour when no ESS is present. -/
def gridPurchaseNoEss (cfg : Config) (h : HourData) : ℚ :=
  max 0 (loadKwh cfg h - hourPurchase cfg h)

lemma hourGridDemand_zero_storage (cfg : Config) (st : EngineState) (h : HourData)
    (hs : st.ess_storage = 0) :
    hourGridDemand cfg st h = gridPurchaseNoEss cfg h := by
  have hd : ∀ x : ℚ, essDischargeAmt 0 x = 0 := by
    intro x
    simp [essDischargeAmt]
  simp only [hourGridDemand, gridPurchaseNoEss, hs, hd, sub_zero]
  split_ifs with h1 h2
  · rw [max_eq_left h1]
  · exact (max_eq_right (le_of_lt h2)).symm
  · exact absurd (not_lt.mp h2) h1

lemma step_storage_zero (cfg : Config) (st : EngineState) (h : HourData)
    (hcap : cfg.ess_capacity = 0) (hs : st.ess_storage = 0) :
    (stepHour cfg st h).ess_storage = 0 := by
  rw [stepHour_ess_storage]
  split_ifs with h1
  · rw [hs]
    simp [essChargeAmt, hcap]
  · rw [hs]
    simp [essDischargeAmt]

lemma runEm_no_ess (cfg : Config) (hcap : cfg.ess_capacity = 0) :
    ∀ (hours : List HourData) (st : EngineState) (e : ℚ), st.ess_storage = 0 →
      (hours.foldl (stepHourEm cfg) (st, e)).2 =
        e + (hours.map (fun h => gridPurchaseNoEss cfg h * h.emission)).sum
  | [], _, _, _ => by simp
  | h :: t, st, e, hs => by
    have hstep : stepHourEm cfg (st, e) h =
        (stepHour cfg st h, e + gridPurchaseNoEss cfg h * h.emission) := by
      simp only [stepHourEm, hourGridDemand_zero_storage cfg st h hs]
    rw [List.foldl_cons, hstep,
      runEm_no_ess cfg hcap t (stepHour cfg st h)
        (e + gridPurchaseNoEss cfg h * h.emission) (step_storage_zero cfg st h hcap hs),
      List.map_cons, List.sum_cons]
    ring

/-- C5: every record that `run_scenario_analysis` collects carries a
`total_emissions` equal to the sum over hours of (grid purchase × that hour's
emission factor), a `carbon_cost` of `(total_emissions / 1000) × carbon_price`,
and `total_cost_with_carbon = total_cost + carbon_cost`. -/
theorem scenario_carbon_accounting (acfg : AnalyzerConfig) (contract_fee : ℚ)
    (hours : List HourData) :
    ∀ rec ∈ run_scenario_analysis acfg contract_fee hours,
      rec.total_emissions = (hours.map (fun h =>
        gridPurchaseNoEss
          (cfgOfAnalyzer acfg contract_fee ((rec.ppa_percent : ℚ) / 100) 0) h *
          h.emission)).sum ∧
      rec.carbon_cost = rec.total_emissions / 1000 * acfg.carbon_price ∧
      rec.total_cost_with_carbon = rec.total_cost + rec.carbon_cost := by
  intro rec hrec
  simp only [run_scenario_analysis, List.mem_map] at hrec
  obtain ⟨pct, hpct, hrec⟩ := hrec
  subst hrec
  have hpp : (scenarioRecord acfg contract_fee hours 0 pct).ppa_percent = pct := rfl
  rw [hpp]
  refine ⟨?_, rfl, rfl⟩
  have hcap : (cfgOfAnalyzer acfg contract_fee ((pct : ℚ) / 100) 0).ess_capacity = 0 := rfl
  have hrun := runEm_no_ess (cfgOfAnalyzer acfg contract_fee ((pct : ℚ) / 100) 0) hcap
    hours initState 0 rfl
  show (calculate_ppa_cost_em
      (cfgOfAnalyzer acfg contract_fee ((pct : ℚ) / 100) 0) hours).total_emissions = _
  simp only [calculate_ppa_cost_em, runEngineEm]
  rw [hrun, zero_add]

/-- The one-scenario analyzer configuration of the C5 witness. -/
def acfgC5 : AnalyzerConfig :=
  { load_capacity_mw := 1, ppa_range_start := 0, ppa_range_end := 0,
    ppa_range_step := 10, ppa_price := 100, ppa_mintake := 1,
    ppa_resell := false, ppa_resellrate := 0, ess_price := 0,
    ess_capacity := 0, carbon_price := 50000 }

/-- The one-hour series of the C5 witness. -/
def hoursC5 : List HourData := [⟨1, 0, 150, (2:ℚ)/5⟩]

/-- Witness for C5 at the single swept record of a one-hour, zero-solar run:
1000 kWh bought from the grid at emission factor 0.4 gives 400 kg of CO2e. -/
theorem scenario_carbon_accounting_witness :
    scenarioRecord acfgC5 10000 hoursC5 0 0 ∈ run_scenario_analysis acfgC5 10000 hoursC5 ∧
    (scenarioRecord acfgC5 10000 hoursC5 0 0).total_emissions =
      (hoursC5.map (fun h =>
        gridPurchaseNoEss (cfgOfAnalyzer acfgC5 10000
          (((scenarioRecord acfgC5 10000 hoursC5 0 0).ppa_percent : ℚ) / 100) 0) h *
          h.emission)).sum ∧
    (scenarioRecord acfgC5 10000 hoursC5 0 0).carbon_cost =
      (scenarioRecord acfgC5 10000 hoursC5 0 0).total_emissions / 1000 *
        acfgC5.carbon_price ∧
    (scenarioRecord acfgC5 10000 hoursC5 0 0).total_cost_with_carbon =
      (scenarioRecord acfgC5 10000 hoursC5 0 0).total_cost +
        (scenarioRecord acfgC5 10000 hoursC5 0 0).carbon_cost := by
  have hmem : scenarioRecord acfgC5 10000 hoursC5 0 0 ∈
      run_scenario_analysis acfgC5 10000 hoursC5 := by
    simp only [run_scenario_analysis, List.mem_map]
    refine ⟨0, ?_, rfl⟩
    decide
  exact ⟨hmem, scenario_carbon_accounting acfgC5 10000 hoursC5 _ hmem⟩

/-! ### C7: per-kWh normalization at zero total load -/

lemma sum_loadKwh (cfg : Config) (hours : List HourData) :
    (hours.map (loadKwh cfg)).sum =
      (hours.map (·.load)).sum * (cfg.load_capacity_mw * 1000) := by
  induction hours with
  | nil => simp
  | cons h t ih =>
    simp only [List.map_cons, List.sum_cons, loadKwh, ih]
    ring

lemma scenarioRecord_perkwh_none (acfg : AnalyzerConfig) (contract_fee : ℚ)
    (hours : List HourData) (ess : ℚ) (pct : ℕ)
    (hsum : (hours.map (·.load)).sum = 0) :
    (scenarioRecord acfg contract_fee hours ess pct).total_cost_per_kwh = none ∧
    (scenarioRecord acfg contract_fee hours ess pct).ppa_cost_per_kwh = none ∧
    (scenarioRecord acfg contract_fee hours ess pct).grid_energy_cost_per_kwh = none ∧
    (scenarioRecord acfg contract_fee hours ess pct).grid_demand_cost_per_kwh = none ∧
    (scenarioRecord acfg contract_fee hours ess pct).ess_cost_per_kwh = none ∧
    (scenarioRecord acfg contract_fee hours ess pct).carbon_cost_per_kwh = none ∧
    (scenarioRecord acfg contract_fee hours ess pct).total_cost_with_carbon_per_kwh = none ∧
    (scenarioRecord acfg contract_fee hours ess pct).emissions_per_kwh = none := by
  simp only [scenarioRecord, hsum, mul_zero, pyDiv, if_pos rfl]
  exact ⟨rfl, rfl, rfl, rfl, rfl, rfl, rfl, rfl⟩

/-- C7 (amended): when the total load is zero, every per-kWh field the
analyzer records — in both `run_scenario_analysis` and `run_ess_analysis` —
is an unguarded division by zero with no rational value (no defined sentinel
is reported), while the engine's own verbose coverage statistic is guarded
and reports the sentinel `0`. -/
theorem perkwh_zero_load_unguarded (acfg : AnalyzerConfig) (contract_fee : ℚ)
    (hours : List HourData) (hsum : (hours.map (·.load)).sum = 0) :
    (∀ rec ∈ run_scenario_analysis acfg contract_fee hours,
      rec.total_cost_per_kwh = none ∧ rec.ppa_cost_per_kwh = none ∧
      rec.grid_energy_cost_per_kwh = none ∧ rec.grid_demand_cost_per_kwh = none ∧
      rec.ess_cost_per_kwh = none ∧ rec.carbon_cost_per_kwh = none ∧
      rec.total_cost_with_carbon_per_kwh = none ∧ rec.emissions_per_kwh = none) ∧
    (∀ rec ∈ (run_ess_analysis acfg contract_fee hours).1,
      rec.total_cost_per_kwh = none ∧ rec.ppa_cost_per_kwh = none ∧
      rec.grid_energy_cost_per_kwh = none ∧ rec.grid_demand_cost_per_kwh = none ∧
      rec.ess_cost_per_kwh = none ∧ rec.carbon_cost_per_kwh = none ∧
      rec.total_cost_with_carbon_per_kwh = none ∧ rec.emissions_per_kwh = none) ∧
    (∀ cfg : Config, actual_coverage cfg hours = 0) := by
  refine ⟨?_, ?_, ?_⟩
  · intro rec hrec
    simp only [run_scenario_analysis, List.mem_map] at hrec
    obtain ⟨pct, hpct, hrec⟩ := hrec
    subst hrec
    exact scenarioRecord_perkwh_none acfg contract_fee hours 0 pct hsum
  · intro rec hrec
    simp only [run_ess_analysis, List.mem_map] at hrec
    obtain ⟨pct, hpct, hrec⟩ := hrec
    subst hrec
    exact scenarioRecord_perkwh_none acfg contract_fee hours _ pct hsum
  · intro cfg
    unfold actual_coverage
    rw [sum_loadKwh, hsum, zero_mul]
    simp

/-- The zero-load one-hour series of the C7 refutation. -/
def hoursC7 : List HourData := [⟨0, 1, 150, (1:ℚ)/2⟩]

/-- The one-scenario analyzer configuration of the C7 refutation. -/
def acfgC7 : AnalyzerConfig :=
  { load_capacity_mw := 1, ppa_range_start := 0, ppa_range_end := 0,
    ppa_range_step := 1, ppa_price := 100, ppa_mintake := 1,
    ppa_resell := false, ppa_resellrate := 0, ess_price := 0,
    ess_capacity := 0, carbon_price := 0 }

/-- C7 counterexample: on a zero-load input the analyzer's per-kWh
normalization has no value at all (it is an unguarded division by zero), so
it is not reported as the defined sentinel the claim requires. -/
theorem perkwh_zero_load_counterexample :
    (hoursC7.map (·.load)).sum = 0 ∧
    ((run_scenario_analysis acfgC7 10000 hoursC7).map (·.total_cost_per_kwh)) =
      [none] := by
  have hsum : (hoursC7.map (·.load)).sum = 0 := by
    simp [hoursC7]
  have hr : pyRange acfgC7.ppa_range_start (acfgC7.ppa_range_end + 1)
      acfgC7.ppa_range_step = [0] := by decide
  refine ⟨hsum, ?_⟩
  simp only [run_scenario_analysis, hr, List.map_cons, List.map_nil]
  have := scenarioRecord_perkwh_none acfgC7 10000 hoursC7 0 0 hsum
  rw [this.1]

/-- Witness for the amended C7 at the concrete zero-load input. -/
theorem perkwh_zero_load_unguarded_witness :
    (hoursC7.map (·.load)).sum = 0 ∧
    (∀ rec ∈ run_scenario_analysis acfgC7 10000 hoursC7,
      rec.total_cost_per_kwh = none ∧ rec.ppa_cost_per_kwh = none ∧
      rec.grid_energy_cost_per_kwh = none ∧ rec.grid_demand_cost_per_kwh = none ∧
      rec.ess_cost_per_kwh = none ∧ rec.carbon_cost_per_kwh = none ∧
      rec.total_cost_with_carbon_per_kwh = none ∧ rec.emissions_per_kwh = none) ∧
    (∀ cfg : Config, actual_coverage cfg hoursC7 = 0) := by
  have hsum : (hoursC7.map (·.load)).sum = 0 := by
    simp [hoursC7]
  have h := perkwh_zero_load_unguarded acfgC7 10000 hoursC7 hsum
  exact ⟨hsum, h.1, h.2.2⟩

/-! ### C8: no length validation of the input series -/

/-- The engine loop as run on the three separate series, driven by the load
series exactly as `for hour in range(len(load_kwh))` is, with the per-hour
`iloc` lookups of the rate and generation series made fallible: the loop
consumes the other series in lockstep and fails when an index is missing
(calculator.py lines 78-81). -/
def runSeries (cfg : Config) :
    EngineState → List ℚ → List ℚ → List ℚ → Option EngineState
  | st, [], _, _ => some st
  | st, l :: ls, g :: gs, r :: rs =>
    runSeries cfg (stepHour cfg st ⟨l, g, r, 0⟩) ls gs rs
  | _, _ :: _, _, _ => none

/-- The engine `calculate_ppa_cost` run on the three raw input series. -/
def calculate_ppa_cost_series (cfg : Config) (loads gens rates : List ℚ) :
    Option (ℚ × ℚ × ℚ × ℚ × ℚ) :=
  (runSeries cfg initState loads gens rates).map (fun st =>
    let grid_demand_cost := st.peak_grid_demand_kw * cfg.contract_fee
    let grid_total_cost := st.grid_energy_cost + grid_demand_cost
    (st.ppa_cost + grid_total_cost + st.ess_cost, st.ppa_cost, grid_total_cost,
      grid_demand_cost, st.ess_cost))

lemma runSeries_isSome (cfg : Config) :
    ∀ (loads gens rates : List ℚ) (st : EngineState),
      (runSeries cfg st loads gens rates).isSome = true ↔
        loads.length ≤ gens.length ∧ loads.length ≤ rates.length
  | [], gens, rates, st => by
    simp [runSeries]
  | _ :: _, [], rates, st => by
    simp [runSeries]
  | _ :: _, _ :: _, [], st => by
    simp [runSeries]
  | l :: ls, g :: gs, r :: rs, st => by
    simp only [runSeries, List.length_cons]
    rw [runSeries_isSome cfg ls gs rs (stepHour cfg st ⟨l, g, r, 0⟩)]
    constructor
    · rintro ⟨h1, h2⟩
      exact ⟨Nat.succ_le_succ h1, Nat.succ_le_succ h2⟩
    · rintro ⟨h1, h2⟩
      exact ⟨Nat.le_of_succ_le_succ h1, Nat.le_of_succ_le_succ h2⟩

/-- C8 (amended): the engine performs no series-length validation. The run
succeeds exactly when the generation and rate series are at least as long as
the load series (longer series are silently truncated to the load length);
a shorter series makes the loop fail only upon reaching the missing index,
after having stepped through the preceding hours, not before the simulation
starts. -/
theorem series_no_length_validation (cfg : Config) :
    (∀ loads gens rates : List ℚ,
      (calculate_ppa_cost_series cfg loads gens rates).isSome = true ↔
        loads.length ≤ gens.length ∧ loads.length ≤ rates.length) ∧
    (∀ (st : EngineState) (l g r : ℚ) (ls gs rs : List ℚ),
      runSeries cfg st (l :: ls) (g :: gs) (r :: rs) =
        runSeries cfg (stepHour cfg st ⟨l, g, r, 0⟩) ls gs rs) := by
  constructor
  · intro loads gens rates
    rw [← runSeries_isSome cfg loads gens rates initState]
    unfold calculate_ppa_cost_series
    cases runSeries cfg initState loads gens rates <;> simp
  · intro st l g r ls gs rs
    rfl

/-- C8 counterexample: a run whose series lengths disagree (one load hour,
two generation and rate entries) does not fail at all — it completes and
returns a result, contradicting the claimed fatal configuration error. -/
theorem series_mismatch_counterexample :
    ¬([(1:ℚ)].length = [(0:ℚ), 0].length) ∧
    (calculate_ppa_cost_series
      { load_capacity_mw := 1, ppa_coverage := 1, contract_fee := 10000,
        ppa_price := 100, ppa_mintake := 1, ppa_resell := false,
        ppa_resellrate := 0, ess_price := 0, ess_capacity := 0 }
      [1] [0, 0] [150, 200]).isSome = true := by
  exact ⟨by decide, rfl⟩

/-! ### C9: optimal scenario selection is the first minimum -/

lemma pyMinBy_spec (key : ScenarioResult → ℚ) :
    ∀ (rs : List ScenarioResult) (best : ScenarioResult),
      ∃ pre post, best :: rs = pre ++ pyMinBy key best rs :: post ∧
        (∀ x ∈ pre, key (pyMinBy key best rs) < key x) ∧
        (∀ x ∈ best :: rs, key (pyMinBy key best rs) ≤ key x) := by
  intro rs
  induction rs with
  | nil =>
    intro best
    refine ⟨[], [], rfl, ?_, ?_⟩
    · intro x hx
      exact absurd hx (List.not_mem_nil x)
    · intro x hx
      rw [List.mem_singleton.mp hx]
      exact le_refl _
  | cons r t ih =>
    intro best
    simp only [pyMinBy]
    by_cases hc : key r < key best
    · rw [if_pos hc]
      obtain ⟨pre', post', hdec, hpre, hall⟩ := ih r
      refine ⟨best :: pre', post', ?_, ?_, ?_⟩
      · rw [List.cons_append, ← hdec]
      · intro x hx
        rcases List.mem_cons.mp hx with rfl | hx
        · exact lt_of_le_of_lt (hall r (List.mem_cons_self _ _)) hc
        · exact hpre x hx
      · intro x hx
        rcases List.mem_cons.mp hx with rfl | hx
        · exact le_of_lt (lt_of_le_of_lt (hall r (List.mem_cons_self _ _)) hc)
        · exact hall x hx
    · rw [if_neg hc]
      obtain ⟨pre', post', hdec, hpre, hall⟩ := ih best
      cases pre' with
      | nil =>
        simp only [List.nil_append] at hdec
        injection hdec with h1 h2
        refine ⟨[], r :: t, ?_, ?_, ?_⟩
        · simp only [List.nil_append]
          rw [← h1]
        · intro x hx
          exact absurd hx (List.not_mem_nil x)
        · intro x hx
          rw [← h1]
          rcases List.mem_cons.mp hx with rfl | hx
          · exact le_refl _
          · rcases List.mem_cons.mp hx with rfl | hx
            · exact not_lt.mp hc
            · have h' := hall x (List.mem_cons_of_mem best hx)
              rw [← h1] at h'
              exact h'
      | cons b pre'' =>
        rw [List.cons_append] at hdec
        injection hdec with h1 h2
        have hbm : key (pyMinBy key best t) < key best := by
          have h' := hpre b (List.mem_cons_self _ _)
          rw [← h1] at h'
          exact h'
        refine ⟨best :: r :: pre'', post', ?_, ?_, ?_⟩
        · simp only [List.cons_append]
          rw [← h2]
        · intro x hx
          rcases List.mem_cons.mp hx with rfl | hx
          · exact hbm
          · rcases List.mem_cons.mp hx with rfl | hx
            · exact lt_of_lt_of_le hbm (not_lt.mp hc)
            · exact hpre x (List.mem_cons_of_mem b hx)
        · intro x hx
          rcases List.mem_cons.mp hx with rfl | hx
          · exact hall x (List.mem_cons_self _ _)
          · rcases List.mem_cons.mp hx with rfl | hx
            · exact le_of_lt (lt_of_lt_of_le hbm (not_lt.mp hc))
            · exact hall x (List.mem_cons_of_mem best hx)

/-- C9: on a non-empty results list, `find_optimal_scenario` returns the
coverage percentage and cost of a record minimizing the selected key
(`total_cost_with_carbon` when carbon optimization is requested and active,
else `total_cost`); every record strictly before the returned one has a
strictly larger key, so ties resolve to the first — and hence, when the list
ascends in coverage, to the lowest-coverage — minimum. -/
theorem find_optimal_first_minimum (results : List ScenarioResult) (inc : Bool)
    (hne : results ≠ []) :
    ∃ pre r post, results = pre ++ r :: post ∧
      find_optimal_scenario results inc = some (r.ppa_percent, optKey results inc r) ∧
      (∀ x ∈ results, optKey results inc r ≤ optKey results inc x) ∧
      (∀ x ∈ pre, optKey results inc r < optKey results inc x) ∧
      (List.Pairwise (fun a b => a.ppa_percent ≤ b.ppa_percent) results →
        ∀ x ∈ results, optKey results inc x = optKey results inc r →
          r.ppa_percent ≤ x.ppa_percent) := by
  match results, hne with
  | r0 :: rs, _ =>
    obtain ⟨pre, post, hdec, hpre, hall⟩ := pyMinBy_spec (optKey (r0 :: rs) inc) rs r0
    refine ⟨pre, pyMinBy (optKey (r0 :: rs) inc) r0 rs, post, hdec, rfl, hall, hpre, ?_⟩
    intro hsort x hx hkey
    have hx' : x ∈ pre ∨ x ∈ pyMinBy (optKey (r0 :: rs) inc) r0 rs :: post := by
      rw [hdec] at hx
      exact List.mem_append.mp hx
    rcases hx' with hx' | hx'
    · exact absurd hkey (ne_of_gt (hpre x hx'))
    · rcases List.mem_cons.mp hx' with rfl | hx'
      · exact le_refl _
      · rw [hdec] at hsort
        have hpair := (List.pairwise_append.mp hsort).2.1
        exact (List.pairwise_cons.mp hpair).1 x hx'

/-- First record of the C9 witness: coverage 0 %, total cost 5. -/
def recC9a : ScenarioResult :=
  { ppa_percent := 0, total_cost := 5, ppa_cost := 0, grid_cost := 5,
    grid_demand_cost := 0, ess_cost := 0, carbon_cost := 0,
    total_cost_with_carbon := 5, total_electricity_kwh := 1000,
    total_cost_per_kwh := some ((1:ℚ)/200), ppa_cost_per_kwh := some 0,
    grid_energy_cost_per_kwh := some ((1:ℚ)/200), grid_demand_cost_per_kwh := some 0,
    ess_cost_per_kwh := some 0, carbon_cost_per_kwh := some 0,
    total_cost_with_carbon_per_kwh := some ((1:ℚ)/200), total_emissions := 0,
    emissions_per_kwh := some 0 }

/-- Second record of the C9 witness: coverage 10 %, same total cost 5. -/
def recC9b : ScenarioResult :=
  { recC9a with ppa_percent := 10 }

/-- Witness for C9 on a two-record tie: the first (lowest-coverage) record is
selected, so the result is `(0, 5)`. -/
theorem find_optimal_first_minimum_witness :
    ([recC9a, recC9b] ≠ []) ∧
    (∃ pre r post, [recC9a, recC9b] = pre ++ r :: post ∧
      find_optimal_scenario [recC9a, recC9b] false =
        some (r.ppa_percent, optKey [recC9a, recC9b] false r) ∧
      (∀ x ∈ [recC9a, recC9b],
        optKey [recC9a, recC9b] false r ≤ optKey [recC9a, recC9b] false x) ∧
      (∀ x ∈ pre, optKey [recC9a, recC9b] false r < optKey [recC9a, recC9b] false x) ∧
      (List.Pairwise (fun a b => a.ppa_percent ≤ b.ppa_percent) [recC9a, recC9b] →
        ∀ x ∈ [recC9a, recC9b],
          optKey [recC9a, recC9b] false x = optKey [recC9a, recC9b] false r →
            r.ppa_percent ≤ x.ppa_percent)) ∧
    find_optimal_scenario [recC9a, recC9b] false = some (0, 5) := by
  refine ⟨by simp, find_optimal_first_minimum [recC9a, recC9b] false (by simp), ?_⟩
  norm_num [find_optimal_scenario, optKey, pyMinBy, recC9a, recC9b]

end SimplePPA
